import Mathlib

/-!
Verification of the real-time streaming session manager
(`src/addons/ai/GeminiManager.ts`) against its natural-language design
specification.

The TypeScript class `GeminiManager` is shallowly embedded below:

* byte buffers (`ArrayBuffer` viewed through `Uint8Array`) are `List Nat`
  with every element `< 256`;
* JS strings that only carry base64/binary payloads are `List Char`;
* the browser's `btoa`/`atob` built-ins, as used through the class's
  `arrayBufferToBase64`/`base64ToArrayBuffer` helpers, are modelled as
  `btoaBytes`/`atobChars` (canonical padded base64; `atobChars` returns
  `none` where `atob` would throw `InvalidCharacterError`);
* 16-bit PCM decoding (`new Int16Array(buffer)`) is modelled little-endian,
  matching every platform the code targets;
* the float division `int16 / 32768.0` is modelled over `ℚ`; it is exact in
  IEEE binary32/binary64 (numerator magnitude ≤ 2^15, denominator 2^15), so
  the rational model loses nothing.
-/

namespace GeminiManager

/-- The base64 alphabet used by `btoa`/`atob`, index 0 = 'A' … 63 = '/'. -/
def b64Table : List Char :=
  ['A', 'B', 'C', 'D', 'E', 'F', 'G', 'H', 'I', 'J', 'K', 'L', 'M',
   'N', 'O', 'P', 'Q', 'R', 'S', 'T', 'U', 'V', 'W', 'X', 'Y', 'Z',
   'a', 'b', 'c', 'd', 'e', 'f', 'g', 'h', 'i', 'j', 'k', 'l', 'm',
   'n', 'o', 'p', 'q', 'r', 's', 't', 'u', 'v', 'w', 'x', 'y', 'z',
   '0', '1', '2', '3', '4', '5', '6', '7', '8', '9', '+', '/']

/-- Character for a 6-bit value (out-of-range values never occur). -/
def b64Char (i : Nat) : Char := b64Table.getD i 'A'

/-- Position of a character in the base64 alphabet; `none` for characters
outside the alphabet (where `atob` throws). -/
def b64Index (c : Char) : Option Nat := b64Table.findIdx? (fun x => x == c)

/-- `btoa` applied to the binary string built byte-by-byte with
`String.fromCharCode` (the body of `arrayBufferToBase64`): groups of three
bytes become four alphabet characters; a trailing group of one or two bytes
is padded with `'='`. -/
def btoaBytes : List Nat → List Char
  | [] => []
  | [b0] =>
      [b64Char (b0 / 4), b64Char (b0 % 4 * 16), '=', '=']
  | [b0, b1] =>
      [b64Char (b0 / 4), b64Char (b0 % 4 * 16 + b1 / 16),
       b64Char (b1 % 16 * 4), '=']
  | b0 :: b1 :: b2 :: rest =>
      b64Char (b0 / 4) :: b64Char (b0 % 4 * 16 + b1 / 16) ::
      b64Char (b1 % 16 * 4 + b2 / 64) :: b64Char (b2 % 64) :: btoaBytes rest

/-- `atob` followed by byte-by-byte `charCodeAt` (the body of
`base64ToArrayBuffer`), on canonical padded base64. A quartet ending in
`"=="` yields one byte, a quartet ending in `"="` yields two, any other
complete quartet yields three; anything else (bad length, characters outside
the alphabet, interior padding) makes `atob` throw, modelled as `none`. -/
def atobChars : List Char → Option (List Nat)
  | [] => some []
  | c0 :: c1 :: c2 :: c3 :: rest =>
      (b64Index c0).bind fun i0 =>
      (b64Index c1).bind fun i1 =>
      if c2 = '=' ∧ c3 = '=' ∧ rest = [] then
        some [i0 * 4 + i1 / 16]
      else
        (b64Index c2).bind fun i2 =>
        if c3 = '=' ∧ rest = [] then
          some [i0 * 4 + i1 / 16, i1 % 16 * 16 + i2 / 4]
        else
          (b64Index c3).bind fun i3 =>
          (atobChars rest).bind fun tl =>
          some ((i0 * 4 + i1 / 16) :: (i1 % 16 * 16 + i2 / 4) ::
                (i2 % 4 * 64 + i3) :: tl)
  | _ => none

/-- `arrayBufferToBase64`: bytes → binary string → `btoa`. -/
def arrayBufferToBase64 (buffer : List Nat) : List Char := btoaBytes buffer

/-- `base64ToArrayBuffer`: `atob` → bytes via `charCodeAt`. -/
def base64ToArrayBuffer (base64 : List Char) : Option (List Nat) :=
  atobChars base64

theorem b64Index_b64Char : ∀ i : Nat, i < 64 → b64Index (b64Char i) = some i := by
  decide

theorem b64Char_ne_pad : ∀ i : Nat, i < 64 → b64Char i ≠ '=' := by
  decide

theorem b64Index_lt_64 {c : Char} {i : Nat} (h : b64Index c = some i) : i < 64 := by
  obtain ⟨hlt, -⟩ := List.findIdx?_eq_some_iff_getElem.mp h
  simpa [b64Table] using hlt

theorem atob_btoa : ∀ bs : List Nat, (∀ b ∈ bs, b < 256) →
    atobChars (btoaBytes bs) = some bs
  | [], _ => rfl
  | [b0], h => by
      have h0 : b0 < 256 := h b0 (by simp)
      have e0 := b64Index_b64Char (b0 / 4) (by omega)
      have e1 := b64Index_b64Char (b0 % 4 * 16) (by omega)
      simp only [btoaBytes, atobChars, e0, e1, Option.some_bind]
      rw [if_pos (by simp)]
      simp only [Option.some.injEq, List.cons.injEq, and_true]
      omega
  | [b0, b1], h => by
      have h0 : b0 < 256 := h b0 (by simp)
      have h1 : b1 < 256 := h b1 (by simp)
      have e0 := b64Index_b64Char (b0 / 4) (by omega)
      have e1 := b64Index_b64Char (b0 % 4 * 16 + b1 / 16) (by omega)
      have e2 := b64Index_b64Char (b1 % 16 * 4) (by omega)
      have ne2 := b64Char_ne_pad (b1 % 16 * 4) (by omega)
      simp only [btoaBytes, atobChars, e0, e1, e2, Option.some_bind]
      rw [if_neg (by simp [ne2]), if_pos (by simp)]
      simp only [Option.some.injEq, List.cons.injEq, and_true]
      omega
  | b0 :: b1 :: b2 :: rest, h => by
      have h0 : b0 < 256 := h b0 (by simp)
      have h1 : b1 < 256 := h b1 (by simp)
      have h2 : b2 < 256 := h b2 (by simp)
      have ih := atob_btoa rest (fun b hb => h b (by simp [hb]))
      have e0 := b64Index_b64Char (b0 / 4) (by omega)
      have e1 := b64Index_b64Char (b0 % 4 * 16 + b1 / 16) (by omega)
      have e2 := b64Index_b64Char (b1 % 16 * 4 + b2 / 64) (by omega)
      have e3 := b64Index_b64Char (b2 % 64) (by omega)
      have ne2 := b64Char_ne_pad (b1 % 16 * 4 + b2 / 64) (by omega)
      have ne3 := b64Char_ne_pad (b2 % 64) (by omega)
      simp only [btoaBytes, atobChars, e0, e1, e2, e3, ih, Option.some_bind]
      rw [if_neg (by simp [ne2]), if_neg (by simp [ne3])]
      simp only [Option.some.injEq, List.cons.injEq, and_true]
      omega

/-- Every byte produced by `atobChars` is `< 256` (each output byte packs
bits of two 6-bit alphabet indices). -/
theorem atobChars_lt_256 : ∀ (s : List Char) (bs : List Nat),
    atobChars s = some bs → ∀ b ∈ bs, b < 256
  | [], bs, hbs => by
      simp only [atobChars, Option.some.injEq] at hbs
      subst hbs
      intro b hb
      simp at hb
  | [_], _, hbs => nomatch hbs
  | [_, _], _, hbs => nomatch hbs
  | [_, _, _], _, hbs => nomatch hbs
  | c0 :: c1 :: c2 :: c3 :: rest, bs, hbs => by
      have hrec := atobChars_lt_256 rest
      simp only [atobChars, Option.bind_eq_some] at hbs
      obtain ⟨i0, hi0, i1, hi1, hbs⟩ := hbs
      have l0 := b64Index_lt_64 hi0
      have l1 := b64Index_lt_64 hi1
      split at hbs
      · simp only [Option.some.injEq] at hbs
        subst hbs
        intro b hb
        simp at hb
        omega
      · simp only [Option.bind_eq_some] at hbs
        obtain ⟨i2, hi2, hbs⟩ := hbs
        have l2 := b64Index_lt_64 hi2
        split at hbs
        · simp only [Option.some.injEq] at hbs
          subst hbs
          intro b hb
          simp at hb
          rcases hb with hb | hb <;> omega
        · simp only [Option.bind_eq_some] at hbs
          obtain ⟨i3, hi3, tl, htl, hbs⟩ := hbs
          have l3 := b64Index_lt_64 hi3
          simp only [Option.some.injEq] at hbs
          subst hbs
          intro b hb
          simp only [List.mem_cons] at hb
          rcases hb with hb | hb | hb | hb
          · omega
          · omega
          · omega
          · exact hrec tl htl b hb

/-- Sign interpretation of one 16-bit word, as an `Int16Array` element. -/
def toInt16 (x : Nat) : Int := if x < 32768 then (x : Int) else (x : Int) - 65536

/-- The decoded buffer viewed as little-endian signed 16-bit samples
(`new Int16Array(arrayBuffer)`). An odd trailing byte never survives to the
sample loop in `playAudioChunk` (the `Int16Array` constructor throws first,
into the surrounding catch), so it is dropped here. -/
def int16Samples : List Nat → List Int
  | [] => []
  | [_] => []
  | b0 :: b1 :: rest => toInt16 (b0 + 256 * b1) :: int16Samples rest

/-- One normalized playback sample: `int16View[i] / 32768.0`. The float
division is exact for this numerator range, so `ℚ` models it faithfully. -/
def normalizeSample (s : Int) : ℚ := (s : ℚ) / 32768

/-- The sample loop of `playAudioChunk`: every 16-bit sample divided by
32768. -/
def pcmToFloat (bytes : List Nat) : List ℚ :=
  (int16Samples bytes).map normalizeSample

/-- The decode-and-normalize front half of `playAudioChunk`:
`base64ToArrayBuffer`, then the per-sample division. -/
def decodeAudioChunk (audioData : List Char) : Option (List ℚ) :=
  (base64ToArrayBuffer audioData).map pcmToFloat

theorem int16Samples_length : ∀ bytes : List Nat,
    (int16Samples bytes).length = bytes.length / 2
  | [] => rfl
  | [_] => by simp [int16Samples]
  | _ :: _ :: rest => by
      simp only [int16Samples, List.length_cons, int16Samples_length rest]
      omega

theorem int16Samples_mem_bounds : ∀ bytes : List Nat, (∀ b ∈ bytes, b < 256) →
    ∀ s ∈ int16Samples bytes, -32768 ≤ s ∧ s ≤ 32767
  | [], _, _, hs => nomatch hs
  | [_], _, _, hs => nomatch hs
  | b0 :: b1 :: rest, h, s, hs => by
      simp only [int16Samples, List.mem_cons] at hs
      rcases hs with rfl | hs
      · have h0 : b0 < 256 := h b0 (by simp)
        have h1 : b1 < 256 := h b1 (by simp)
        unfold toInt16
        split <;> omega
      · exact int16Samples_mem_bounds rest (fun b hb => h b (by simp [hb])) s hs

theorem normalizeSample_bounds {s : Int} (h1 : -32768 ≤ s) (h2 : s ≤ 32767) :
    -1 ≤ normalizeSample s ∧ normalizeSample s < 1 := by
  have h32 : (0 : ℚ) < 32768 := by norm_num
  unfold normalizeSample
  constructor
  · rw [le_div_iff₀ h32]
    have : (-32768 : ℚ) ≤ (s : ℚ) := by exact_mod_cast h1
    linarith
  · rw [div_lt_one h32]
    have : (s : ℚ) ≤ 32767 := by exact_mod_cast h2
    linarith

/-- C4: for every base64-encoded 16-bit signed PCM input of even decoded
byte length `n`, the decode-and-normalize step of `playAudioChunk`
(`base64ToArrayBuffer`, then per-sample division by 32768) produces exactly
`n / 2` samples, and every produced sample lies in `[-1, 1)`. -/
theorem C4_decode_normalize (s : List Char) (bs : List Nat)
    (hdec : base64ToArrayBuffer s = some bs) (_heven : bs.length % 2 = 0) :
    decodeAudioChunk s = some (pcmToFloat bs) ∧
    (pcmToFloat bs).length = bs.length / 2 ∧
    ∀ v ∈ pcmToFloat bs, -1 ≤ v ∧ v < 1 := by
  have hdec' : atobChars s = some bs := hdec
  refine ⟨by simp [decodeAudioChunk, hdec], ?_, ?_⟩
  · simp [pcmToFloat, int16Samples_length]
  · intro v hv
    obtain ⟨smp, hsmp, rfl⟩ := List.mem_map.mp hv
    have hb := atobChars_lt_256 s bs hdec'
    have hbd := int16Samples_mem_bounds bs hb smp hsmp
    exact normalizeSample_bounds hbd.1 hbd.2

/-- Witness for C4 at the concrete chunk `"AAAAAA=="` (four zero bytes →
two zero samples). -/
theorem C4_decode_normalize_witness :
    decodeAudioChunk ['A', 'A', 'A', 'A', 'A', 'A', '=', '='] =
      some (pcmToFloat [0, 0, 0, 0]) ∧
    (pcmToFloat [0, 0, 0, 0]).length = 2 ∧
    ∀ v ∈ pcmToFloat [0, 0, 0, 0], -1 ≤ v ∧ v < 1 := by
  have h := C4_decode_normalize ['A', 'A', 'A', 'A', 'A', 'A', '=', '=']
    [0, 0, 0, 0] (by decide) (by decide)
  exact ⟨h.1, h.2.1, h.2.2⟩

/-- C10: the two base64 helpers invert each other exactly: decoding the
encoding of any byte buffer returns the same bytes (hence the same length). -/
theorem C10_base64_roundtrip (b : List Nat) (h : ∀ x ∈ b, x < 256) :
    base64ToArrayBuffer (arrayBufferToBase64 b) = some b :=
  atob_btoa b h

/-- Witness for C10 at a concrete five-byte buffer. -/
theorem C10_base64_roundtrip_witness :
    base64ToArrayBuffer (arrayBufferToBase64 [0, 100, 255, 16, 7]) =
      some [0, 100, 255, 16, 7] :=
  C10_base64_roundtrip [0, 100, 255, 16, 7] (by decide)

/-- The `xb.AI` collaborator as the class observes it: which optional
methods are present (`this.ai.stopLiveSession`, `this.ai.sendRealtimeInput`
are feature-tested before use). -/
structure AIM where
  hasStopLiveSession : Bool
  hasSendRealtimeInput : Bool
deriving DecidableEq

/-- An `AudioContext` handle: only its configured sample rate matters. -/
structure AudioContextM where
  sampleRate : Nat
deriving DecidableEq

/-- An `AudioBuffer` as built in `playAudioChunk`. -/
structure AudioBufferM where
  numberOfChannels : Nat
  bufLength : Nat
  sampleRate : Nat
  samples : List ℚ
deriving DecidableEq

/-- The mutable fields of the `GeminiManager` class. `audioStream` holds
the ids of its `MediaStreamTrack`s; node fields record handle presence. -/
structure GMState where
  audioStream : Option (List Nat)
  audioContext : Option AudioContextM
  sourceNode : Bool
  processorNode : Bool
  isAIRunning : Bool
  audioQueue : List AudioBufferM
  isPlayingAudio : Bool
  screenshotInterval : Option Nat
  currentInputText : String
  currentOutputText : String
  ai : Option AIM
deriving DecidableEq

/-- One media unit given to `ai.sendRealtimeInput`. -/
inductive MediaPayload
  | audio (data : List Char) (mimeType : String)
  | video (data : List Char) (mimeType : String)
deriving DecidableEq

/-- Observable actions of the manager, in program order. -/
inductive Act
  | warn (msg : String)
  | logError (msg : String)
  | sendRealtimeInput (p : MediaPayload)
  | stopLiveSessionCall
  | clearIntervalCall (id : Nat)
  | setIntervalCall (id : Nat)
  | disconnectProcessor
  | disconnectSource
  | closeAudioContext
  | stopTrack (t : Nat)
  | getUserMediaCall
  | createAudioContext (sampleRate : Nat)
  | dispatchInputTranscription (text : String)
  | dispatchOutputTranscription (text : String)
  | dispatchTurnComplete
  | enqueueSegment (buf : AudioBufferM)
  | startSource (buf : AudioBufferM)
deriving DecidableEq

/-- Outcome of a JS block that can throw: both constructors carry the state
mutated so far and the actions emitted before returning/throwing. -/
inductive JsResult (α : Type)
  | ok (v : α)
  | thrown (e : String) (v : α)

/-- `initializeAudioContext` (lines 193–197): create a 24 kHz context only
if the (shared) `audioContext` field is still null. -/
def initializeAudioContext (st : GMState) : GMState × List Act :=
  match st.audioContext with
  | none => ({st with audioContext := some ⟨24000⟩}, [.createAudioContext 24000])
  | some _ => (st, [])

/-- Environment for `setupAudioCapture`: the `getUserMedia` settlement
(`none` = rejected, `some tracks` = a stream with those audio tracks) and
whether `audioWorklet.addModule` rejects. -/
structure CaptureEnv where
  getUserMediaResult : Option (List Nat)
  addModuleFails : Bool

/-- `setupAudioCapture` (lines 82–112). Note the partial mutations kept on
the throwing paths: `audioStream` is assigned before the empty-track check,
and the 16 kHz capture context is assigned to the shared `audioContext`
field before `addModule` is awaited. -/
def setupAudioCapture (st : GMState) (env : CaptureEnv) :
    JsResult (GMState × List Act) :=
  match env.getUserMediaResult with
  | none => .thrown "getUserMedia rejected" (st, [.getUserMediaCall])
  | some tracks =>
    let st1 := {st with audioStream := some tracks}
    if tracks.isEmpty then
      .thrown "No audio tracks found." (st1, [.getUserMediaCall])
    else
      let st2 := {st1 with audioContext := some ⟨16000⟩}
      if env.addModuleFails then
        .thrown "addModule rejected"
          (st2, [.getUserMediaCall, .createAudioContext 16000])
      else
        .ok ({st2 with sourceNode := true, processorNode := true},
             [.getUserMediaCall, .createAudioContext 16000])

/-- `startLiveAI` (lines 114–134) as awaited by `startGeminiLive`: the
returned promise resolves when the transport signals `onopen` and rejects
when it signals `onerror` first (or `startLiveSession()` itself rejects). -/
def startLiveAI (st : GMState) (opens : Bool) : JsResult (GMState × List Act) :=
  if opens then .ok (st, [])
  else .thrown "Live AI error" (st, [.logError "Live AI error:"])

/-- `startScreenshotCapture` (lines 136–144): reported error if the timer
already runs, otherwise start the repeating timer. -/
def startScreenshotCapture (st : GMState) (intervalId : Nat) : GMState × List Act :=
  match st.screenshotInterval with
  | some _ => (st, [.logError "Screenshot interval already running"])
  | none => ({st with screenshotInterval := some intervalId},
             [.setIntervalCall intervalId])

/-- `cleanup` (lines 241–270), step by step in source order: clear the
timer, drop the queue and the playing flag, disconnect both nodes, close
the context, stop every stream track. -/
def cleanup (st : GMState) : GMState × List Act :=
  let p1 : GMState × List Act :=
    match st.screenshotInterval with
    | some id => ({st with screenshotInterval := none}, [.clearIntervalCall id])
    | none => (st, [])
  let st2 := {p1.1 with audioQueue := [], isPlayingAudio := false}
  let p3 : GMState × List Act :=
    if st2.processorNode then ({st2 with processorNode := false}, [.disconnectProcessor])
    else (st2, [])
  let p4 : GMState × List Act :=
    if p3.1.sourceNode then ({p3.1 with sourceNode := false}, [.disconnectSource])
    else (p3.1, [])
  let p5 : GMState × List Act :=
    match p4.1.audioContext with
    | some _ => ({p4.1 with audioContext := none}, [.closeAudioContext])
    | none => (p4.1, [])
  let p6 : GMState × List Act :=
    match p5.1.audioStream with
    | some tracks => ({p5.1 with audioStream := none}, tracks.map Act.stopTrack)
    | none => (p5.1, [])
  (p6.1, p1.2 ++ p3.2 ++ p4.2 ++ p5.2 ++ p6.2)

/-- Whether `this.ai && this.ai.stopLiveSession` is truthy. -/
def hasStopLive (st : GMState) : Bool :=
  match st.ai with
  | some a => a.hasStopLiveSession
  | none => false

/-- `stopGeminiLive` (lines 63–80). One try/catch wraps the whole body:
`await this.ai.stopLiveSession()` first, then `cleanup()`, then the flag
reset and the transcription reset. `stopLiveFails` is the oracle for the
awaited `stopLiveSession()` rejecting; in that case control jumps straight
to the catch (which only logs), skipping every later step. -/
def stopGeminiLive (st : GMState) (stopLiveFails : Bool) : GMState × List Act :=
  if !st.isAIRunning then (st, [])
  else if hasStopLive st && stopLiveFails then
    (st, [.stopLiveSessionCall, .logError "Failed to stop Gemini Live:"])
  else
    let pre : List Act := if hasStopLive st then [.stopLiveSessionCall] else []
    let p := cleanup st
    ({p.1 with isAIRunning := false, currentInputText := "", currentOutputText := ""},
     pre ++ p.2)

/-- Whether `this.isAIRunning && this.ai && this.ai.sendRealtimeInput` is
truthy (the negated guard of both send methods). -/
def canSendRealtime (st : GMState) : Bool :=
  st.isAIRunning &&
    (match st.ai with
     | some a => a.hasSendRealtimeInput
     | none => false)

/-- `sendAudioData` (lines 165–177): throws when the session is not ready;
otherwise base64-encodes the buffer on the sending path and pushes one
audio unit. The push action itself sits inside an error-absorbing
try/catch. -/
def sendAudioData (st : GMState) (audioBuffer : List Nat) : Except String (List Act) :=
  if !canSendRealtime st then .error "AI not ready to send audio clip."
  else .ok [.sendRealtimeInput
    (.audio (arrayBufferToBase64 audioBuffer) "audio/pcm;rate=16000")]

/-- `sendVideoFrame` (lines 179–191): same gate; pushes the already
base64-encoded frame. -/
def sendVideoFrame (st : GMState) (base64Image : List Char) : Except String (List Act) :=
  if !canSendRealtime st then .error "AI not ready to send video frame"
  else .ok [.sendRealtimeInput (.video base64Image "image/jpeg")]

/-- What `xrDeviceCamera.getSnapshot` did on one tick. -/
inductive SnapshotOutcome
  | str (s : List Char)
  | nonString
  | threw (e : String)
deriving DecidableEq

/-- `String.prototype.split(sep)` for a one-character separator. -/
def splitOnChar (sep : Char) : List Char → List (List Char)
  | [] => [[]]
  | c :: rest =>
    match splitOnChar sep rest with
    | [] => if c = sep then [[], []] else [[c]]
    | seg :: segs =>
      if c = sep then [] :: seg :: segs else (c :: seg) :: segs

/-- The data-URL normalization in `captureAndSendScreenshot`:
`base64Image.startsWith('data:') ? base64Image.split(',')[1] : base64Image`.
`split(',')[1]` is the text between the first and second commas; a data URL
always contains a comma and a base64 payload contains none, so index 1
exists on every data URL (`getD 1 []` covers the otherwise-`undefined`
index, which no reachable input produces). -/
def stripDataUrl (s : List Char) : List Char :=
  if ['d', 'a', 't', 'a', ':'].isPrefixOf s then (splitOnChar ',' s).getD 1 []
  else s

/-- `captureAndSendScreenshot` (lines 146–163): the whole body is inside a
try/catch, so a throwing snapshot — or the `sendVideoFrame` not-ready throw
— is logged and swallowed; a non-string snapshot is ignored; a string is
prefix-stripped and forwarded. No field of the manager is written. -/
def captureAndSendScreenshot (st : GMState) (snap : SnapshotOutcome) :
    GMState × List Act :=
  match snap with
  | .threw _ => (st, [.logError "Failed to capture screenshot:"])
  | .nonString => (st, [])
  | .str s =>
    match sendVideoFrame st (stripDataUrl s) with
    | .ok acts => (st, acts)
    | .error _ => (st, [.logError "Failed to capture screenshot:"])

/-- The timer driver: one `captureAndSendScreenshot` call per tick. -/
def runScreenshotTicks (st : GMState) : List SnapshotOutcome → GMState × List Act
  | [] => (st, [])
  | snap :: rest =>
    let p := captureAndSendScreenshot st snap
    let q := runScreenshotTicks p.1 rest
    (q.1, p.2 ++ q.2)

/-- The `serverContent` part of one `LiveServerMessage`. A transcription
field of `some t` models the object being present with `.text` equal to
`t` (`""` also covers an absent `.text`, which the truthy check treats the
same way). -/
structure ServerContent where
  inputTranscription : Option String
  outputTranscription : Option String
  turnComplete : Bool
deriving DecidableEq

/-- One inbound transport message: optional base64 audio plus optional
`serverContent`. -/
structure LiveServerMessage where
  data : Option (List Char)
  serverContent : Option ServerContent
deriving DecidableEq

/-- `playNextAudioBuffer` (lines 222–239): with an empty queue drop to
idle; otherwise shift the head, mark playing and start a source for it
(whose `onended` re-enters this function). -/
def playNextAudioBuffer (st : GMState) : GMState × List Act :=
  match st.audioQueue with
  | [] => ({st with isPlayingAudio := false}, [])
  | buf :: rest =>
    ({st with audioQueue := rest, isPlayingAudio := true}, [.startSource buf])

/-- The remainder of `playAudioChunk` (lines 199–220) after
`await this.initializeAudioContext()`: decode, normalize, build the 24 kHz
buffer, push it, and start playback when idle. A failing `atob`, a
zero-length buffer (`createBuffer` throws) or an odd byte length
(`new Int16Array` throws) lands in the catch, which logs and drops the
chunk. -/
def playAudioChunkAfterAwait (st : GMState) (audioData : List Char) :
    GMState × List Act :=
  match base64ToArrayBuffer audioData with
  | none => (st, [.logError "Error playing audio chunk:"])
  | some bytes =>
    if bytes.length / 2 = 0 ∨ bytes.length % 2 ≠ 0 then
      (st, [.logError "Error playing audio chunk:"])
    else
      let buf : AudioBufferM := ⟨1, bytes.length / 2, 24000, pcmToFloat bytes⟩
      let st1 := {st with audioQueue := st.audioQueue ++ [buf]}
      if st1.isPlayingAudio then (st1, [.enqueueSegment buf])
      else
        let p := playNextAudioBuffer st1
        (p.1, .enqueueSegment buf :: p.2)

/-- `playAudioChunk` as a whole (context init, then the deferred half). -/
def playAudioChunk (st : GMState) (audioData : List Char) : GMState × List Act :=
  let p := initializeAudioContext st
  let q := playAudioChunkAfterAwait p.1 audioData
  (q.1, p.2 ++ q.2)

/-- The input-transcription dispatch of `handleAIMessage`: an event fires
only for a present object with truthy (non-empty) text. -/
def inputTranscriptionActs (sc : ServerContent) : List Act :=
  match sc.inputTranscription with
  | some t => if t ≠ "" then [Act.dispatchInputTranscription t] else []
  | none => []

/-- The output-transcription dispatch of `handleAIMessage`. -/
def outputTranscriptionActs (sc : ServerContent) : List Act :=
  match sc.outputTranscription with
  | some t => if t ≠ "" then [Act.dispatchOutputTranscription t] else []
  | none => []

/-- The `serverContent` branch of `handleAIMessage`, in source order:
input transcription, output transcription, then turn-complete. -/
def serverContentActs (sc : ServerContent) : List Act :=
  inputTranscriptionActs sc ++ outputTranscriptionActs sc ++
    (if sc.turnComplete then [Act.dispatchTurnComplete] else [])

/-- `handleAIMessage` (lines 272–295) as one event-loop turn.

`playAudioChunk` is `async` and is invoked without `await`. Its body runs
synchronously exactly up to `await this.initializeAudioContext()` — the
context check/creation itself completes synchronously, because
`initializeAudioContext` contains no `await` — and then suspends, so the
decode/enqueue remainder resumes as a microtask only after the rest of
`handleAIMessage` (the transcription and turn-complete dispatches, which
are synchronous) has run. The chronological per-message action trace is
therefore: the synchronous context effect, the `serverContent` dispatches,
then the deferred enqueue/playback-start. -/
def handleAIMessage (st : GMState) (msg : LiveServerMessage) : GMState × List Act :=
  match msg.data with
  | some d =>
    let p := initializeAudioContext st
    let dispatches :=
      match msg.serverContent with
      | some sc => serverContentActs sc
      | none => []
    let q := playAudioChunkAfterAwait p.1 d
    (q.1, p.2 ++ dispatches ++ q.2)
  | none =>
    (st, match msg.serverContent with
         | some sc => serverContentActs sc
         | none => [])

/-- The four transport callbacks installed by `startLiveAI`. -/
inductive LiveCallbackEvent
  | onopen
  | onmessage (msg : LiveServerMessage)
  | onerror (e : String)
  | onclose

/-- The callback record of `startLiveAI` (lines 116–130). The last
component is the settlement this event applies to the pending `open`
promise: `onopen` resolves it, `onerror` logs and rejects it, `onclose`
only clears the running flag and settles nothing. -/
def liveCallback (st : GMState) :
    LiveCallbackEvent → GMState × List Act × Option (Except String Unit)
  | .onopen => (st, [], some (.ok ()))
  | .onmessage m =>
    let p := handleAIMessage st m
    (p.1, p.2, none)
  | .onerror e => (st, [.logError "Live AI error:"], some (.error e))
  | .onclose => ({st with isAIRunning := false}, [], none)

/-- Environment for one `startGeminiLive` run. -/
structure StartEnv where
  capture : CaptureEnv
  liveOpens : Bool
  intervalId : Nat

/-- `startGeminiLive` (lines 45–61): warn-and-return when already running
(or no `ai`); otherwise capture setup, live open and timer start in order,
with `cleanup()` plus a rethrow (the `Option String` component) on any
failure. -/
def startGeminiLive (st : GMState) (env : StartEnv) :
    (GMState × List Act) × Option String :=
  if st.isAIRunning || st.ai.isNone then
    ((st, [.warn "AI already running or not available"]), none)
  else
    match setupAudioCapture st env.capture with
    | .thrown e p =>
      let c := cleanup p.1
      ((c.1, p.2 ++ [.logError "Failed to start Gemini Live:"] ++ c.2), some e)
    | .ok p =>
      match startLiveAI p.1 env.liveOpens with
      | .thrown e q =>
        let c := cleanup q.1
        ((c.1, p.2 ++ q.2 ++ [.logError "Failed to start Gemini Live:"] ++ c.2), some e)
      | .ok q =>
        let r := startScreenshotCapture q.1 env.intervalId
        (({r.1 with isAIRunning := true}, p.2 ++ q.2 ++ r.2), none)

/-- An `ai` collaborator with both optional methods present. -/
def exAI : AIM := ⟨true, true⟩

/-- A freshly-constructed manager after `init()`: every handle null, no
session running. -/
def exFreshSt : GMState :=
  ⟨none, none, false, false, false, [], false, none, "", "", some exAI⟩

/-- A capture environment in which `getUserMedia` yields one track and
`addModule` succeeds. -/
def exCaptureEnv : CaptureEnv := ⟨some [0], false⟩

def exStartEnv : StartEnv := ⟨exCaptureEnv, true, 1⟩

/-- The manager state after a fully successful `startGeminiLive`. -/
def exRunSt : GMState :=
  ⟨some [0], some ⟨16000⟩, true, true, true, [], false, some 1, "", "", some exAI⟩

/-- `exRunSt` while a response segment is audibly playing. -/
def exPlaySt : GMState := {exRunSt with isPlayingAudio := true}

/-- The base64 chunk `"AAAAAA=="`: four zero bytes, two zero samples. -/
def exChunk : List Char := ['A', 'A', 'A', 'A', 'A', 'A', '=', '=']

/-- The playback segment `playAudioChunk` builds from `exChunk`. -/
def exBuf : AudioBufferM := ⟨1, 2, 24000, pcmToFloat [0, 0, 0, 0]⟩

/-- A transport message carrying both audio data and `turnComplete: true`. -/
def exMsg : LiveServerMessage := ⟨some exChunk, some ⟨none, none, true⟩⟩

/-- A mid-session state with live resources, a queued segment and
accumulated transcription text, used to exercise `stopGeminiLive`. -/
def exStopSt : GMState :=
  ⟨some [5], some ⟨16000⟩, true, true, true, [⟨1, 2, 24000, []⟩], true, some 1,
   "hello", "world", some exAI⟩

/-- The state `setupAudioCapture` leaves behind on success from a fresh
manager. -/
def postSetup : GMState :=
  match setupAudioCapture exFreshSt exCaptureEnv with
  | .ok p => p.1
  | .thrown _ p => p.1

/-- The resource-released state that `cleanup` leaves behind. -/
def cleanedState (st : GMState) : GMState :=
  { st with
    screenshotInterval := none
    audioQueue := []
    isPlayingAudio := false
    processorNode := false
    sourceNode := false
    audioContext := none
    audioStream := none }

/-- The state after a full, non-throwing `stopGeminiLive` teardown. -/
def stoppedState (st : GMState) : GMState :=
  { cleanedState st with
    isAIRunning := false
    currentInputText := ""
    currentOutputText := "" }

/-- `cleanup` always ends in the fully-released state, whatever subset of
resources was live. -/
theorem cleanup_state (st : GMState) :
    (cleanup st).1 = cleanedState st := by
  rcases st with ⟨as, ac, sn, pn, run, q, ipa, si, cit, cot, ai⟩
  unfold cleanup cleanedState
  cases si <;> cases pn <;> cases sn <;> cases ac <;> cases as <;> rfl

/-- C1 counterexample: with the session running and `stopLiveSession()`
rejecting, `stopGeminiLive` executes none of the local teardown steps — the
state is returned untouched: the timer still set, the queue still full, the
playing flag still set, the transcriptions still accumulated, and the
session still marked running. The claim that every teardown step executes
even if an earlier step throws is false at this input. -/
theorem C1_stop_counterexample :
    stopGeminiLive exStopSt true =
      (exStopSt, [Act.stopLiveSessionCall, Act.logError "Failed to stop Gemini Live:"]) ∧
    (stopGeminiLive exStopSt true).1.audioQueue ≠ [] ∧
    (stopGeminiLive exStopSt true).1.screenshotInterval ≠ none ∧
    (stopGeminiLive exStopSt true).1.currentInputText ≠ "" ∧
    (stopGeminiLive exStopSt true).1.isPlayingAudio = true ∧
    (stopGeminiLive exStopSt true).1.isAIRunning = true := by
  refine ⟨rfl, ?_, ?_, ?_, rfl, rfl⟩ <;> decide

/-- C1 amended: when no step throws, `stopGeminiLive` on a running session
performs the full teardown: its action trace requests transport close
first (`stopLiveSessionCall`, whenever `this.ai.stopLiveSession` exists)
followed by exactly the `cleanup` actions (timer clear, node disconnects,
context close, track stops), and its final state has the timer cleared,
queue emptied, playback flag dropped, nodes disconnected, context closed,
stream stopped, running flag cleared and transcriptions reset; when the
awaited `stopLiveSession()` rejects, the error is caught and only logged
(`stopGeminiLive` itself never throws), but every later teardown step is
skipped and the state is left unchanged. -/
theorem C1_stop_teardown (st : GMState) (h : st.isAIRunning = true) :
    ((stopGeminiLive st false).1 = stoppedState st ∧
     (stopGeminiLive st false).2 =
       (if hasStopLive st then [Act.stopLiveSessionCall] else []) ++ (cleanup st).2) ∧
    (hasStopLive st = true →
      stopGeminiLive st true =
        (st, [Act.stopLiveSessionCall, Act.logError "Failed to stop Gemini Live:"])) := by
  refine ⟨⟨?_, ?_⟩, ?_⟩
  · unfold stopGeminiLive
    rw [h]
    simp only [Bool.not_true, Bool.and_false, Bool.false_eq_true, if_false]
    rw [cleanup_state]
    rfl
  · unfold stopGeminiLive
    rw [h]
    simp only [Bool.not_true, Bool.and_false, Bool.false_eq_true, if_false]
  · intro hstop
    unfold stopGeminiLive
    rw [h, hstop]
    rfl

/-- Witness for C1 amended at the concrete mid-session state: the no-throw
run requests transport close first, then performs every cleanup action, and
fully resets the state. -/
theorem C1_stop_teardown_witness :
    (stopGeminiLive exStopSt false).1.audioQueue = [] ∧
    (stopGeminiLive exStopSt false).1.isAIRunning = false ∧
    (stopGeminiLive exStopSt false).1.currentInputText = "" ∧
    (stopGeminiLive exStopSt false).2 =
      [Act.stopLiveSessionCall, Act.clearIntervalCall 1, Act.disconnectProcessor,
       Act.disconnectSource, Act.closeAudioContext, Act.stopTrack 5] ∧
    stopGeminiLive exStopSt true =
      (exStopSt, [Act.stopLiveSessionCall, Act.logError "Failed to stop Gemini Live:"]) := by
  have h := C1_stop_teardown exStopSt rfl
  refine ⟨?_, ?_, ?_, ?_, h.2 rfl⟩
  · rw [h.1.1]
    rfl
  · rw [h.1.1]
    rfl
  · rw [h.1.1]
    rfl
  · rw [h.1.2]
    rfl

/-- C2: the lazy/idempotent half of the claim holds — from a null
`audioContext`, `initializeAudioContext` creates one 24 kHz context, and a
second call creates nothing — but the claimed 24 kHz rate after a session
start is contradicted by the code: the field is shared with the capture
path, so after `setupAudioCapture` has installed the 16 kHz capture
context, `initializeAudioContext` is a no-op and `playAudioChunk` runs on
the 16 kHz context. -/
theorem C2_playback_context :
    (initializeAudioContext exFreshSt).1.audioContext = some ⟨24000⟩ ∧
    (initializeAudioContext exFreshSt).2 = [Act.createAudioContext 24000] ∧
    (initializeAudioContext (initializeAudioContext exFreshSt).1).2 = [] ∧
    (initializeAudioContext (initializeAudioContext exFreshSt).1).1.audioContext =
      some ⟨24000⟩ ∧
    postSetup.audioContext = some ⟨16000⟩ ∧
    (initializeAudioContext postSetup).2 = [] ∧
    (initializeAudioContext postSetup).1.audioContext = some ⟨16000⟩ ∧
    (playAudioChunk postSetup exChunk).1.audioContext = some ⟨16000⟩ := by
  decide

/-- C6: a send while the session is not running fails with the not-ready
error and transmits nothing (the error value carries no transport action);
with the session open, `sendAudioData` base64-encodes on the sending path
and pushes one audio unit, and `sendVideoFrame` pushes the frame. -/
theorem C6_send_gate (st : GMState) (buf : List Nat) (img : List Char) :
    (st.isAIRunning = false →
      sendAudioData st buf = .error "AI not ready to send audio clip." ∧
      sendVideoFrame st img = .error "AI not ready to send video frame") ∧
    (∀ a : AIM, st.ai = some a → a.hasSendRealtimeInput = true →
      st.isAIRunning = true →
      sendAudioData st buf = .ok [Act.sendRealtimeInput
        (.audio (arrayBufferToBase64 buf) "audio/pcm;rate=16000")] ∧
      sendVideoFrame st img = .ok [Act.sendRealtimeInput (.video img "image/jpeg")]) := by
  constructor
  · intro h
    constructor <;> simp [sendAudioData, sendVideoFrame, canSendRealtime, h]
  · intro a ha hsend hrun
    constructor <;>
      simp [sendAudioData, sendVideoFrame, canSendRealtime, ha, hsend, hrun]

/-- Witness for C6: closed before `open` resolves, open afterwards. -/
theorem C6_send_gate_witness :
    sendAudioData exFreshSt [1, 2] = .error "AI not ready to send audio clip." ∧
    sendVideoFrame exFreshSt ['Q', 'A'] = .error "AI not ready to send video frame" ∧
    sendAudioData exRunSt [1, 2] = .ok [Act.sendRealtimeInput
      (.audio (arrayBufferToBase64 [1, 2]) "audio/pcm;rate=16000")] := by
  have hclosed := (C6_send_gate exFreshSt [1, 2] ['Q', 'A']).1 rfl
  have hopen := (C6_send_gate exRunSt [1, 2] ['Q', 'A']).2 exAI rfl rfl rfl
  exact ⟨hclosed.1, hclosed.2, hopen.1⟩

/-- C7: `startGeminiLive` on an already-running session only warns and
returns: the state is exactly the input state (no field written, no
resource acquired) and no error is thrown. -/
theorem C7_start_noop (st : GMState) (env : StartEnv) (h : st.isAIRunning = true) :
    startGeminiLive st env =
      ((st, [Act.warn "AI already running or not available"]), none) := by
  unfold startGeminiLive
  rw [h]
  rfl

/-- Witness for C7 at the running example state. -/
theorem C7_start_noop_witness :
    startGeminiLive exRunSt exStartEnv =
      ((exRunSt, [Act.warn "AI already running or not available"]), none) :=
  C7_start_noop exRunSt exStartEnv rfl

/-- `captureAndSendScreenshot` writes no field of the manager, whatever
the snapshot outcome: in particular the timer handle survives a failing
tick. -/
theorem captureAndSendScreenshot_state (st : GMState) (snap : SnapshotOutcome) :
    (captureAndSendScreenshot st snap).1 = st := by
  cases snap with
  | str s =>
    unfold captureAndSendScreenshot
    cases hsv : sendVideoFrame st (stripDataUrl s) <;> simp [hsv]
  | nonString => rfl
  | threw e => rfl

theorem runScreenshotTicks_state (st : GMState) :
    ∀ snaps : List SnapshotOutcome, (runScreenshotTicks st snaps).1 = st
  | [] => rfl
  | snap :: rest => by
    show (runScreenshotTicks (captureAndSendScreenshot st snap).1 rest).1 = st
    rw [captureAndSendScreenshot_state]
    exact runScreenshotTicks_state st rest

theorem runScreenshotTicks_append (st : GMState) :
    ∀ s1 s2 : List SnapshotOutcome,
      (runScreenshotTicks st (s1 ++ s2)).2 =
        (runScreenshotTicks st s1).2 ++ (runScreenshotTicks st s2).2
  | [], s2 => by simp [runScreenshotTicks]
  | snap :: rest, s2 => by
    simp only [List.cons_append, runScreenshotTicks, captureAndSendScreenshot_state,
      List.append_eq]
    rw [runScreenshotTicks_append st rest s2, List.append_assoc]

/-- C9: a throwing capture tick is logged and swallowed — the tick changes
no state (so the timer is not cleared) and the ticks before and after it
produce exactly the actions they would produce on their own; a successful
tick on an open session forwards the captured image with any data-URL
prefix stripped. -/
theorem C9_tick_isolation (st : GMState) (pre post : List SnapshotOutcome) (e : String) :
    (captureAndSendScreenshot st (.threw e)).1 = st ∧
    (captureAndSendScreenshot st (.threw e)).2 =
      [Act.logError "Failed to capture screenshot:"] ∧
    (runScreenshotTicks st (pre ++ SnapshotOutcome.threw e :: post)).1 = st ∧
    (runScreenshotTicks st (pre ++ SnapshotOutcome.threw e :: post)).2 =
      (runScreenshotTicks st pre).2 ++
        Act.logError "Failed to capture screenshot:" ::
          (runScreenshotTicks st post).2 ∧
    (∀ s, canSendRealtime st = true →
      (captureAndSendScreenshot st (.str s)).2 =
        [Act.sendRealtimeInput (.video (stripDataUrl s) "image/jpeg")]) := by
  refine ⟨rfl, rfl, runScreenshotTicks_state st _, ?_, ?_⟩
  · rw [runScreenshotTicks_append]
    simp only [runScreenshotTicks, captureAndSendScreenshot_state]
    rfl
  · intro s hc
    unfold captureAndSendScreenshot sendVideoFrame
    rw [hc]
    rfl

/-- A data-URL-prefixed capture result, `"data:image/jpeg;base64,QUJD"`. -/
def exDataUrl : List Char :=
  ['d', 'a', 't', 'a', ':', 'i', 'm', 'a', 'g', 'e', '/', 'j', 'p', 'e', 'g',
   ';', 'b', 'a', 's', 'e', '6', '4', ',', 'Q', 'U', 'J', 'D']

/-- The bare base64 image `"QUJD"`. -/
def exImage : List Char := ['Q', 'U', 'J', 'D']

/-- Witness for C9: one failing tick between two good ones on an open
session; the failure only logs and the later tick still forwards its frame,
and the `data:image/jpeg;base64,` prefix is stripped before forwarding. -/
theorem C9_tick_isolation_witness :
    (runScreenshotTicks exRunSt
        [SnapshotOutcome.str exDataUrl, SnapshotOutcome.threw "camera gone",
         SnapshotOutcome.str exImage]).2 =
      [Act.sendRealtimeInput (.video exImage "image/jpeg"),
       Act.logError "Failed to capture screenshot:",
       Act.sendRealtimeInput (.video exImage "image/jpeg")] ∧
    (runScreenshotTicks exRunSt
        [SnapshotOutcome.str exDataUrl, SnapshotOutcome.threw "camera gone",
         SnapshotOutcome.str exImage]).1.screenshotInterval = some 1 := by
  have h := C9_tick_isolation exRunSt
    [SnapshotOutcome.str exDataUrl] [SnapshotOutcome.str exImage] "camera gone"
  have h1 : (runScreenshotTicks exRunSt
      [SnapshotOutcome.str exDataUrl, SnapshotOutcome.threw "camera gone",
       SnapshotOutcome.str exImage]).2 =
      (runScreenshotTicks exRunSt [SnapshotOutcome.str exDataUrl]).2 ++
        Act.logError "Failed to capture screenshot:" ::
          (runScreenshotTicks exRunSt [SnapshotOutcome.str exImage]).2 := h.2.2.2.1
  have hstate : (runScreenshotTicks exRunSt
      [SnapshotOutcome.str exDataUrl, SnapshotOutcome.threw "camera gone",
       SnapshotOutcome.str exImage]).1 = exRunSt := h.2.2.1
  have hgood := h.2.2.2.2 exDataUrl (by decide)
  have hgood2 := h.2.2.2.2 exImage (by decide)
  constructor
  · rw [h1]
    simp only [runScreenshotTicks, captureAndSendScreenshot_state]
    rw [hgood, hgood2]
    have e1 : stripDataUrl exDataUrl = exImage := by decide
    have e2 : stripDataUrl exImage = exImage := by decide
    rw [e1, e2]
    rfl
  · rw [hstate]
    rfl

/-- Is the action a playback-segment enqueue? -/
def isEnqueueAct : Act → Bool
  | .enqueueSegment _ => true
  | _ => false

/-- Is the action the turn-complete dispatch? -/
def isTurnCompleteAct : Act → Bool
  | .dispatchTurnComplete => true
  | _ => false

theorem inputTranscriptionActs_counts (sc : ServerContent) :
    (inputTranscriptionActs sc).countP isEnqueueAct = 0 ∧
    (inputTranscriptionActs sc).countP isTurnCompleteAct = 0 := by
  unfold inputTranscriptionActs
  cases h : sc.inputTranscription with
  | none => simp
  | some t => split <;> simp [isEnqueueAct, isTurnCompleteAct]

theorem outputTranscriptionActs_counts (sc : ServerContent) :
    (outputTranscriptionActs sc).countP isEnqueueAct = 0 ∧
    (outputTranscriptionActs sc).countP isTurnCompleteAct = 0 := by
  unfold outputTranscriptionActs
  cases h : sc.outputTranscription with
  | none => simp
  | some t => split <;> simp [isEnqueueAct, isTurnCompleteAct]

theorem initializeAudioContext_counts (st : GMState) :
    (initializeAudioContext st).2.countP isEnqueueAct = 0 ∧
    (initializeAudioContext st).2.countP isTurnCompleteAct = 0 := by
  unfold initializeAudioContext
  cases h : st.audioContext <;> simp [isEnqueueAct, isTurnCompleteAct]

theorem serverContentActs_turnComplete (sc : ServerContent)
    (h : sc.turnComplete = true) :
    serverContentActs sc =
      (inputTranscriptionActs sc ++ outputTranscriptionActs sc) ++
        [Act.dispatchTurnComplete] := by
  unfold serverContentActs
  rw [h]
  simp

/-- On a successfully decoded even-length non-empty chunk, the deferred
half of `playAudioChunk` emits exactly one enqueue and never a
turn-complete dispatch. -/
theorem playAudioChunkAfterAwait_counts (st : GMState) (d : List Char)
    (bytes : List Nat) (hd : base64ToArrayBuffer d = some bytes)
    (hnz : bytes.length / 2 ≠ 0) (hev : bytes.length % 2 = 0) :
    (playAudioChunkAfterAwait st d).2.countP isEnqueueAct = 1 ∧
    (playAudioChunkAfterAwait st d).2.countP isTurnCompleteAct = 0 := by
  refine ⟨?_, ?_⟩ <;>
  · unfold playAudioChunkAfterAwait
    rw [hd]
    dsimp only
    rw [if_neg (by omega)]
    split
    · simp [isEnqueueAct, isTurnCompleteAct]
    · unfold playNextAudioBuffer
      split <;> simp [isEnqueueAct, isTurnCompleteAct]

/-- C3 counterexample: a message carrying both audio data and
`turnComplete: true`, handled in a state where a segment is already
playing. Exactly one enqueue and one turn-complete dispatch occur, but the
dispatch comes first: `playAudioChunk` is async and un-awaited, so its
queue push resumes as a microtask only after the synchronous dispatches.
The claimed enqueue-before-dispatch order is false at this input. -/
theorem C3_order_counterexample :
    (handleAIMessage exPlaySt exMsg).2 =
      [Act.dispatchTurnComplete, Act.enqueueSegment exBuf] ∧
    (handleAIMessage exPlaySt exMsg).2[0]? = some Act.dispatchTurnComplete ∧
    (handleAIMessage exPlaySt exMsg).2[1]? = some (Act.enqueueSegment exBuf) := by
  refine ⟨rfl, rfl, rfl⟩

/-- C3 amended: one message with a decodable audio payload and
`turnComplete: true` produces exactly one enqueued segment and exactly one
turn-complete dispatch, with the dispatch emitted before the enqueue (the
un-awaited async `playAudioChunk` defers its push past the synchronous
dispatches); the synchronous payload handling itself follows source
order. -/
theorem C3_message_order (st : GMState) (d : List Char) (sc : ServerContent)
    (bytes : List Nat) (hd : base64ToArrayBuffer d = some bytes)
    (hnz : bytes.length / 2 ≠ 0) (hev : bytes.length % 2 = 0)
    (htc : sc.turnComplete = true) :
    ∃ pre post : List Act,
      (handleAIMessage st ⟨some d, some sc⟩).2 =
        pre ++ Act.dispatchTurnComplete :: post ∧
      pre.countP isEnqueueAct = 0 ∧ pre.countP isTurnCompleteAct = 0 ∧
      post.countP isEnqueueAct = 1 ∧ post.countP isTurnCompleteAct = 0 := by
  refine ⟨(initializeAudioContext st).2 ++
      (inputTranscriptionActs sc ++ outputTranscriptionActs sc),
    (playAudioChunkAfterAwait (initializeAudioContext st).1 d).2, ?_, ?_, ?_, ?_, ?_⟩
  · show (initializeAudioContext st).2 ++ serverContentActs sc ++
        (playAudioChunkAfterAwait (initializeAudioContext st).1 d).2 = _
    rw [serverContentActs_turnComplete sc htc]
    simp [List.append_assoc]
  · simp [List.countP_append, (initializeAudioContext_counts st).1,
      (inputTranscriptionActs_counts sc).1, (outputTranscriptionActs_counts sc).1]
  · simp [List.countP_append, (initializeAudioContext_counts st).2,
      (inputTranscriptionActs_counts sc).2, (outputTranscriptionActs_counts sc).2]
  · exact (playAudioChunkAfterAwait_counts _ d bytes hd hnz hev).1
  · exact (playAudioChunkAfterAwait_counts _ d bytes hd hnz hev).2

/-- Witness for C3 amended: the counts at the concrete message. -/
theorem C3_message_order_witness :
    (handleAIMessage exPlaySt exMsg).2.countP isTurnCompleteAct = 1 ∧
    (handleAIMessage exPlaySt exMsg).2.countP isEnqueueAct = 1 := by
  obtain ⟨pre, post, heq, h1, h2, h3, h4⟩ :=
    C3_message_order exPlaySt exChunk ⟨none, none, true⟩ [0, 0, 0, 0]
      (by decide) (by decide) (by decide) rfl
  have hmsg : exMsg = ⟨some exChunk, some ⟨none, none, true⟩⟩ := rfl
  rw [hmsg, heq]
  simp [List.countP_append, List.countP_cons, h1, h2, h3, h4,
    isEnqueueAct, isTurnCompleteAct]

/-- The playback-relevant state of the manager, with two
environment-ghost fields: `activeSources` counts Web Audio buffer sources
started and not yet ended, `started` records the segments in start order. -/
structure PlayerState where
  audioQueue : List AudioBufferM
  isPlayingAudio : Bool
  activeSources : Nat
  started : List AudioBufferM

/-- The session starts with an empty queue, idle. -/
def playerInit : PlayerState := ⟨[], false, 0, []⟩

/-- `playNextAudioBuffer` over `PlayerState`: empty queue → idle;
otherwise shift the head, mark playing, start one source for it. -/
def playNextP (st : PlayerState) : PlayerState :=
  match st.audioQueue with
  | [] => {st with isPlayingAudio := false}
  | buf :: rest => ⟨rest, true, st.activeSources + 1, st.started ++ [buf]⟩

/-- The two playback-relevant callbacks that can interleave:
`enqueue` is the tail of `playAudioChunk` (push, then `playNextAudioBuffer`
exactly when idle); `sourceEnded` is the `onended` of a started source
firing on its natural completion (it re-enters `playNextAudioBuffer`). -/
inductive PlayerEvent
  | enqueue (buf : AudioBufferM)
  | sourceEnded

def playerStep (st : PlayerState) : PlayerEvent → PlayerState
  | .enqueue buf =>
    let st1 := {st with audioQueue := st.audioQueue ++ [buf]}
    if st1.isPlayingAudio then st1 else playNextP st1
  | .sourceEnded => playNextP {st with activeSources := st.activeSources - 1}

def runPlayer (st : PlayerState) : List PlayerEvent → PlayerState
  | [] => st
  | e :: es => runPlayer (playerStep st e) es

/-- A trace is valid when every `sourceEnded` fires while a source is
actually live (the environment only delivers `onended` for a started,
unfinished source). -/
def validPlayerTrace (st : PlayerState) : List PlayerEvent → Bool
  | [] => true
  | e :: es =>
    (match e with
     | .sourceEnded => decide (1 ≤ st.activeSources)
     | .enqueue _ => true) && validPlayerTrace (playerStep st e) es

/-- The segments enqueued by a trace, in order. -/
def enqueuedOf : List PlayerEvent → List AudioBufferM
  | [] => []
  | .enqueue b :: es => b :: enqueuedOf es
  | .sourceEnded :: es => enqueuedOf es

/-- The playback invariant: never more than one live source; the playing
flag tracks exactly whether a source is live; whenever idle, the queue is
empty. -/
def PlayerInv (st : PlayerState) : Prop :=
  st.activeSources ≤ 1 ∧
  (st.isPlayingAudio = true ↔ st.activeSources = 1) ∧
  (st.isPlayingAudio = false → st.audioQueue = [])

theorem playerStep_inv (st : PlayerState) (hinv : PlayerInv st) :
    ∀ e : PlayerEvent, (e = PlayerEvent.sourceEnded → 1 ≤ st.activeSources) →
    PlayerInv (playerStep st e) ∧
    (playerStep st e).started ++ (playerStep st e).audioQueue =
      (st.started ++ st.audioQueue) ++ enqueuedOf [e] := by
  obtain ⟨q, ip, act, strt⟩ := st
  obtain ⟨h1, h2, h3⟩ := hinv
  have ha : act ≤ 1 := h1
  have hip : ip = true ↔ act = 1 := h2
  have hq0 : ip = false → q = [] := h3
  intro e hval
  cases e with
  | enqueue buf =>
    cases ip with
    | true =>
      refine ⟨⟨ha, ?_, ?_⟩, ?_⟩
      · simpa [playerStep] using hip
      · simp [playerStep]
      · simp [playerStep, enqueuedOf, List.append_assoc]
    | false =>
      have hq : q = [] := hq0 rfl
      subst hq
      have hact : act = 0 := by
        rcases Nat.lt_or_ge act 1 with h | h
        · omega
        · exact absurd (hip.mpr (by omega)) (by simp)
      subst hact
      refine ⟨⟨?_, ?_, ?_⟩, ?_⟩ <;>
        simp [playerStep, playNextP, enqueuedOf]
  | sourceEnded =>
    have hge : 1 ≤ act := hval rfl
    have hact : act = 1 := by omega
    subst hact
    have hipt : ip = true := hip.mpr rfl
    subst hipt
    cases q with
    | nil =>
      refine ⟨⟨?_, ?_, ?_⟩, ?_⟩ <;>
        simp [playerStep, playNextP, enqueuedOf]
    | cons b rest =>
      refine ⟨⟨?_, ?_, ?_⟩, ?_⟩ <;>
        simp [playerStep, playNextP, enqueuedOf, List.append_assoc]

theorem validPlayerTrace_append : ∀ (s1 s2 : List PlayerEvent) (st : PlayerState),
    validPlayerTrace st (s1 ++ s2) = true → validPlayerTrace st s1 = true
  | [], _, _, _ => rfl
  | e :: rest, s2, st, h => by
    simp only [List.cons_append, validPlayerTrace, Bool.and_eq_true] at h ⊢
    exact ⟨h.1, validPlayerTrace_append rest s2 (playerStep st e) h.2⟩

theorem runPlayer_inv : ∀ (es : List PlayerEvent) (st : PlayerState),
    PlayerInv st → validPlayerTrace st es = true →
    PlayerInv (runPlayer st es) ∧
    (runPlayer st es).started ++ (runPlayer st es).audioQueue =
      (st.started ++ st.audioQueue) ++ enqueuedOf es
  | [], st, hinv, _ => ⟨hinv, by simp [runPlayer, enqueuedOf]⟩
  | e :: es, st, hinv, hv => by
    have hv' : validPlayerTrace (playerStep st e) es = true := by
      simp only [validPlayerTrace, Bool.and_eq_true] at hv
      exact hv.2
    have hcond : e = PlayerEvent.sourceEnded → 1 ≤ st.activeSources := by
      intro he
      subst he
      simp only [validPlayerTrace, Bool.and_eq_true, decide_eq_true_eq] at hv
      exact hv.1
    have hstep := playerStep_inv st hinv e hcond
    have ih := runPlayer_inv es (playerStep st e) hstep.1 hv'
    refine ⟨ih.1, ?_⟩
    have hrun : runPlayer st (e :: es) = runPlayer (playerStep st e) es := rfl
    rw [hrun, ih.2, hstep.2]
    cases e <;> simp [enqueuedOf, List.append_assoc]

/-- C5: along every valid interleaving of enqueues and natural source
completions, the started segments are exactly a prefix of the enqueued
segments in enqueue order with the still-queued remainder behind them
(FIFO, nothing skipped or reordered); at every step at most one source is
live (no overlap), the playing flag tracks liveness, a new start happens
only through an enqueue-when-idle or a natural completion, and the playing
flag is false exactly in states whose queue has drained. -/
theorem C5_playback_fifo (es : List PlayerEvent)
    (hv : validPlayerTrace playerInit es = true) :
    ((runPlayer playerInit es).started ++ (runPlayer playerInit es).audioQueue =
      enqueuedOf es) ∧
    ∀ k : Nat,
      (runPlayer playerInit (es.take k)).activeSources ≤ 1 ∧
      ((runPlayer playerInit (es.take k)).isPlayingAudio = true ↔
        (runPlayer playerInit (es.take k)).activeSources = 1) ∧
      ((runPlayer playerInit (es.take k)).isPlayingAudio = false →
        (runPlayer playerInit (es.take k)).audioQueue = []) ∧
      (runPlayer playerInit (es.take k)).started ++
        (runPlayer playerInit (es.take k)).audioQueue = enqueuedOf (es.take k) := by
  have hinit : PlayerInv playerInit := ⟨by simp [playerInit], by simp [playerInit],
    fun _ => rfl⟩
  have hfull := runPlayer_inv es playerInit hinit hv
  constructor
  · have := hfull.2
    simpa [playerInit] using this
  · intro k
    have hpref : validPlayerTrace playerInit (es.take k) = true := by
      have happ := validPlayerTrace_append (es.take k) (es.drop k) playerInit
      rw [List.take_append_drop] at happ
      exact happ hv
    have h := runPlayer_inv (es.take k) playerInit hinit hpref
    exact ⟨h.1.1, h.1.2.1, h.1.2.2, by simpa [playerInit] using h.2⟩

/-- Two distinguishable one-sample segments. -/
def exBufA : AudioBufferM := ⟨1, 1, 24000, [0]⟩

def exBufB : AudioBufferM := ⟨1, 1, 24000, [1]⟩

/-- Two segments enqueued back-to-back, then each completes naturally. -/
def exPlayerTrace : List PlayerEvent :=
  [.enqueue exBufA, .enqueue exBufB, .sourceEnded, .sourceEnded]

/-- Witness for C5 at the concrete two-segment trace. -/
theorem C5_playback_fifo_witness :
    (runPlayer playerInit exPlayerTrace).started ++
      (runPlayer playerInit exPlayerTrace).audioQueue = enqueuedOf exPlayerTrace ∧
    (runPlayer playerInit exPlayerTrace).activeSources ≤ 1 := by
  have h := C5_playback_fifo exPlayerTrace (by decide)
  refine ⟨h.1, ?_⟩
  have h4 := (h.2 4).1
  simpa [exPlayerTrace] using h4

/-- C8: a spontaneous transport `onclose` clears the running flag, emits
no error action, settles nothing on the pending open promise (so nothing is
escalated to a caller), and leaves every other field untouched. -/
theorem C8_onclose_normal (st : GMState) :
    (liveCallback st .onclose).1.isAIRunning = false ∧
    (liveCallback st .onclose).2.1 = [] ∧
    (liveCallback st .onclose).2.2 = none ∧
    (liveCallback st .onclose).1.audioStream = st.audioStream ∧
    (liveCallback st .onclose).1.audioContext = st.audioContext ∧
    (liveCallback st .onclose).1.audioQueue = st.audioQueue ∧
    (liveCallback st .onclose).1.screenshotInterval = st.screenshotInterval ∧
    (liveCallback st .onclose).1.currentInputText = st.currentInputText ∧
    (liveCallback st .onclose).1.currentOutputText = st.currentOutputText := by
  exact ⟨rfl, rfl, rfl, rfl, rfl, rfl, rfl, rfl, rfl⟩

end GeminiManager
